import Mathlib

/-!
Verification of `src/report_generator.py` (CraftBazaar sales report generator).

The embedding models the module's plain-Python code paths (the behavior when
the optional `pandas` dependency is absent, which the spec's §9 designates as
the algorithm to implement): the loader fallback of `load_data`
(lines 27–37), the manual grouping branch of `generate_summary`
(lines 56–75), and the control flow of `main` (lines 110–118).

Numeric types: Python `int` is modelled as `Int` (unbounded, as in Python);
Python `float` is modelled as `Rat` (exact rational arithmetic standing in
for IEEE floats; + and * on the values arising here are modelled exactly).
-/

namespace CraftBazaar

/-- One parsed sale record: the four columns the program reads from a CSV row
(`r['artisan']`, `r['product']`, `r['units_sold']`, `r['unit_price']`).
`units_sold` is produced by `int(...)` and `unit_price` by `float(...)`;
negative values are accepted by the code, hence `Int`/`Rat`. -/
structure Record where
  artisan : String
  product : String
  units_sold : Int
  unit_price : Rat
deriving DecidableEq

/-- One entry of a grouped table: a key (artisan or product name) with the
running `{'units': ..., 'revenue': ...}` dict the code accumulates. -/
structure AggregateRow where
  key : String
  units : Int
  revenue : Rat
deriving DecidableEq

/-- The 4-tuple `generate_summary` returns:
`(total_revenue, total_units, by_artisan_sorted, by_product_sorted)`. -/
structure SummaryResult where
  total_revenue : Rat
  total_units : Int
  by_artisan : List AggregateRow
  by_product : List AggregateRow
deriving DecidableEq

/-- The effect of lines 66–68 (resp. 69–71) on one grouping dict, viewed as an
insertion-ordered association list (Python dicts preserve insertion order):
`d.setdefault(k, {'units':0,'revenue':0.0}); d[k]['units'] += u;
d[k]['revenue'] += rev`. An absent key is appended at the end with the new
contribution; a present key has its entry updated in place. -/
def updateGroup (m : List AggregateRow) (k : String) (u : Int) (rev : Rat) :
    List AggregateRow :=
  match m with
  | [] => [⟨k, u, rev⟩]
  | a :: rest =>
      if a.key = k then ⟨a.key, a.units + u, a.revenue + rev⟩ :: rest
      else a :: updateGroup rest k u rev

/-- The mutable state of the accumulation loop of `generate_summary`
(lines 58–61): running totals and the two insertion-ordered grouping dicts. -/
structure SummaryState where
  total_revenue : Rat
  total_units : Int
  by_artisan : List AggregateRow
  by_product : List AggregateRow

/-- One iteration of the loop `for r in df:` (lines 62–71). -/
def stepRecord (s : SummaryState) (r : Record) : SummaryState :=
  let rev : Rat := (r.units_sold : Rat) * r.unit_price
  { total_revenue := s.total_revenue + rev
    total_units := s.total_units + r.units_sold
    by_artisan := updateGroup s.by_artisan r.artisan r.units_sold rev
    by_product := updateGroup s.by_product r.product r.units_sold rev }

/-- The ordering used by lines 73–74:
`sorted(d.items(), key=lambda x: x[1]['revenue'], reverse=True)`.
`revGE a b` holds when `a` may come before `b`: revenue non-increasing. -/
def revGE (a b : AggregateRow) : Prop := b.revenue ≤ a.revenue

instance : DecidableRel revGE :=
  fun a b => inferInstanceAs (Decidable (b.revenue ≤ a.revenue))

instance : IsTotal AggregateRow revGE :=
  ⟨fun a b => le_total b.revenue a.revenue⟩

instance : IsTrans AggregateRow revGE :=
  ⟨fun _ _ _ h1 h2 => le_trans h2 h1⟩

/-- `generate_summary` (lines 56–75, the plain-Python branch): fold the
accumulation loop over the records, then sort each grouping table by revenue
descending. Python's `sorted` is a stable sort and `reverse=True` preserves
the order of ties, so it is modelled by the stable `List.insertionSort`
under `revGE`. -/
def generate_summary (df : List Record) : SummaryResult :=
  let s := df.foldl stepRecord ⟨0, 0, [], []⟩
  { total_revenue := s.total_revenue
    total_units := s.total_units
    by_artisan := s.by_artisan.insertionSort revGE
    by_product := s.by_product.insertionSort revGE }

/-- Insertion of a key into an insertion-ordered key list: the effect of
`d.setdefault(k, ...)` on the key sequence of a Python dict — an absent key
is appended at the end, a present key leaves the sequence unchanged. -/
def insKey (acc : List String) (k : String) : List String :=
  if k ∈ acc then acc else acc ++ [k]

/-- The keys of a list in first-seen order: the key sequence a Python dict
holds after inserting each element of `ks` in order. -/
def firstSeen (ks : List String) : List String :=
  ks.foldl insKey []

/-- Position of a key in a key list (first match). Used to express
"first-seen order of the keys" as a rank. -/
def keyPos : List String → String → Nat
  | [], _ => 0
  | a :: l, k => if a = k then 0 else keyPos l k + 1

/-! ### Runtime model: loader, dict-level summary and `main`

`load_data` (lines 21–37, csv fallback), the dict-level record access of
`generate_summary`, and `main` (lines 110–118) are modelled over an abstract
file system `fs : String → Option CsvFile` giving, for each path, the parsed
CSV table at that path (header line plus data rows) or `none` when no file
exists there. -/

/-- A CSV file as `csv.DictReader` sees it: a header row of column names and
the data rows (each a list of field strings). -/
structure CsvFile where
  header : List String
  rows : List (List String)
deriving DecidableEq

/-- The Python exceptions the program can raise while processing rows: a
`KeyError` from a missing dict key, or a `ValueError` from `int()` /
`float()` on a malformed field. Both derive from `Exception` and are caught
by the `except Exception` handler of `main`. -/
inductive PyError where
  | keyError (k : String)
  | valueError (m : String)
deriving DecidableEq

/-- `str(e)` for the two modelled exceptions, as interpolated into the
`"UNEXPECTED ERROR: {e}"` message: `str` of a `KeyError` is the repr-quoted
key; `str` of a `ValueError` is its message. -/
def renderErr : PyError → String
  | .keyError k => "'" ++ k ++ "'"
  | .valueError m => m

/-- Value of `digits` as a number, for the numeral parsers below. -/
def digitsToNat (l : List Char) : Nat :=
  l.foldl (fun a c => a * 10 + (c.toNat - 48)) 0

/-- Model of Python's `int(s)` builtin (an external library function):
an optional minus sign followed by one or more decimal digits parses to that
integer; any other string returns `none`, standing for the `ValueError`
`int()` raises. (Python's `int()` additionally accepts a leading `+`,
surrounding whitespace and `_` separators; those forms are not modelled.) -/
def parseIntOpt (s : String) : Option Int :=
  match s.data with
  | [] => none
  | '-' :: rest =>
      if rest ≠ [] ∧ rest.all Char.isDigit then some (-(digitsToNat rest : Int))
      else none
  | l =>
      if l.all Char.isDigit then some (digitsToNat l : Int) else none

/-- Unsigned decimal numeral with optional fractional part, for
`parseFloatOpt`: `digits`, `digits.`, `digits.digits` or `.digits`. -/
def parseDecimal (l : List Char) : Option Rat :=
  match l.span Char.isDigit with
  | (intPart, []) =>
      if intPart ≠ [] then some (digitsToNat intPart : Rat) else none
  | (intPart, '.' :: frac) =>
      if frac.all Char.isDigit ∧ (intPart ≠ [] ∨ frac ≠ []) then
        some ((digitsToNat intPart : Rat) +
          (digitsToNat frac : Rat) / ((10 : Rat) ^ frac.length))
      else none
  | _ => none

/-- Model of Python's `float(s)` builtin (an external library function):
an optional minus sign followed by a decimal numeral, read as an exact
rational; any other string returns `none`, standing for the `ValueError`
`float()` raises. (Exponent notation, `inf`/`nan`, a leading `+` and
whitespace are not modelled.) -/
def parseFloatOpt (s : String) : Option Rat :=
  match s.data with
  | '-' :: rest => (parseDecimal rest).map (fun q => -q)
  | l => parseDecimal l

/-- One row as it sits in the loader's `rows` list after its loop body ran:
the `DictReader` dict for the row (header names zipped with the row's
fields) together with the coerced numeric values the loop stored back into
it (`r['units_sold'] = int(...)`, `r['unit_price'] = float(...)`). The
string entries for the other columns are unchanged, so key presence in
`raw` is that of the original dict. -/
structure LoadedRow where
  raw : List (String × String)
  units_sold : Int
  unit_price : Rat
deriving DecidableEq

/-- The loader's loop body for one row (lines 33–36): look up
`r['units_sold']` (`KeyError` if the column is absent), coerce with `int()`
(`ValueError` on failure), then the same for `r['unit_price']` with
`float()`. -/
def parseRow (header row : List String) : Except PyError LoadedRow :=
  match (header.zip row).lookup "units_sold" with
  | none => .error (.keyError "units_sold")
  | some us =>
    match parseIntOpt us with
    | none => .error (.valueError ("invalid literal for int with base 10: " ++ us))
    | some u =>
      match (header.zip row).lookup "unit_price" with
      | none => .error (.keyError "unit_price")
      | some ps =>
        match parseFloatOpt ps with
        | none => .error (.valueError ("could not convert string to float: " ++ ps))
        | some p => .ok ⟨header.zip row, u, p⟩

/-- The loader's row loop (lines 33–36): rows are materialized eagerly in
order; the first exception aborts the whole load, so no partial row list is
ever returned. -/
def loadRows (header : List String) : List (List String) → Except PyError (List LoadedRow)
  | [] => .ok []
  | r :: rs =>
    match parseRow header r with
    | .error e => .error e
    | .ok x =>
      match loadRows header rs with
      | .error e => .error e
      | .ok xs => .ok (x :: xs)

/-- Outcome of `load_data` (lines 21–37): a `SystemExit` with code 2 after
printing an error naming the path (missing file, lines 22–24), a Python
exception raised while parsing rows, or the loaded row list. -/
inductive LoadResult where
  | sysExit (code : Nat) (msg : String)
  | raised (e : PyError)
  | ok (rows : List LoadedRow)
deriving DecidableEq

/-- The fixed input path (line 17): `INPUT = "sales_data.csv"`. -/
def INPUT : String := "sales_data.csv"

/-- `load_data` (lines 21–37, csv fallback branch): if the path does not
exist, print `ERROR: input file <path> not found` to stderr and
`sys.exit(2)`; otherwise parse the rows eagerly. -/
def load_data (fs : String → Option CsvFile) (path : String) : LoadResult :=
  match fs path with
  | none => .sysExit 2 ("ERROR: input file " ++ path ++ " not found")
  | some csv =>
    match loadRows csv.header csv.rows with
    | .error e => .raised e
    | .ok rows => .ok rows

/-- One iteration of the summary loop (lines 62–71) at the dict level: the
numeric fields were coerced by the loader, but `r['artisan']` (line 66) and
`r['product']` (line 69) are dict lookups that raise `KeyError` when the
column is absent from the header. -/
def summaryStepRun (s : SummaryState) (r : LoadedRow) : Except PyError SummaryState :=
  let rev : Rat := (r.units_sold : Rat) * r.unit_price
  match r.raw.lookup "artisan" with
  | none => .error (.keyError "artisan")
  | some a =>
    match r.raw.lookup "product" with
    | none => .error (.keyError "product")
    | some p =>
      .ok { total_revenue := s.total_revenue + rev
            total_units := s.total_units + r.units_sold
            by_artisan := updateGroup s.by_artisan a r.units_sold rev
            by_product := updateGroup s.by_product p r.units_sold rev }

/-- The summary loop over the loaded rows, in input order; the first
exception propagates. -/
def summaryLoopRun : SummaryState → List LoadedRow → Except PyError SummaryState
  | s, [] => .ok s
  | s, r :: rs =>
    match summaryStepRun s r with
    | .error e => .error e
    | .ok s2 => summaryLoopRun s2 rs

/-- `generate_summary` at the dict level (lines 56–75), as `main` calls it
on the loader's output: run the loop, then sort both tables. -/
def generateSummaryRun (rows : List LoadedRow) : Except PyError SummaryResult :=
  match summaryLoopRun ⟨0, 0, [], []⟩ rows with
  | .error e => .error e
  | .ok s =>
      .ok ⟨s.total_revenue, s.total_units,
        s.by_artisan.insertionSort revGE, s.by_product.insertionSort revGE⟩

/-- A finished process run: the exit code passed to `sys.exit` and the
messages printed to stderr. -/
structure ProcResult where
  exitCode : Nat
  stderrMsgs : List String
deriving DecidableEq

/-- `main` (lines 110–118). `sys.exit(2)` inside `load_data` raises
`SystemExit`, which derives from `BaseException`, not `Exception`, so the
`except Exception` handler does not intercept it and the process exits with
code 2. Python exceptions raised while loading or summarizing are caught by
the handler, which prints `UNEXPECTED ERROR: <e>` to stderr and exits 1.
On success the reporting step (out of the spec's core scope) is assumed to
complete and the process exits 0. -/
def main (fs : String → Option CsvFile) : ProcResult :=
  match load_data fs INPUT with
  | .sysExit c m => ⟨c, [m]⟩
  | .raised e => ⟨1, ["UNEXPECTED ERROR: " ++ renderErr e]⟩
  | .ok rows =>
    match generateSummaryRun rows with
    | .error e => ⟨1, ["UNEXPECTED ERROR: " ++ renderErr e]⟩
    | .ok _ => ⟨0, []⟩

/-! ### Accumulation lemmas for the record loop -/

theorem foldl_stepRecord_total_units : ∀ (l : List Record) (s : SummaryState),
    (l.foldl stepRecord s).total_units =
      s.total_units + (l.map Record.units_sold).sum
  | [], s => by simp
  | r :: l, s => by
    rw [List.foldl_cons, foldl_stepRecord_total_units l]
    simp [stepRecord, add_assoc]

theorem foldl_stepRecord_total_revenue : ∀ (l : List Record) (s : SummaryState),
    (l.foldl stepRecord s).total_revenue =
      s.total_revenue + (l.map fun r => (r.units_sold : Rat) * r.unit_price).sum
  | [], s => by simp
  | r :: l, s => by
    rw [List.foldl_cons, foldl_stepRecord_total_revenue l]
    simp [stepRecord, add_assoc]

theorem updateGroup_map_units_sum (m : List AggregateRow) (k : String)
    (u : Int) (rev : Rat) :
    ((updateGroup m k u rev).map AggregateRow.units).sum =
      (m.map AggregateRow.units).sum + u := by
  induction m with
  | nil => simp [updateGroup]
  | cons a rest ih =>
    by_cases h : a.key = k <;> simp [updateGroup, h, ih] <;> ring

theorem foldl_stepRecord_by_artisan_units :
    ∀ (l : List Record) (s : SummaryState),
    (((l.foldl stepRecord s).by_artisan).map AggregateRow.units).sum =
      ((s.by_artisan).map AggregateRow.units).sum + (l.map Record.units_sold).sum
  | [], s => by simp
  | r :: l, s => by
    rw [List.foldl_cons, foldl_stepRecord_by_artisan_units l]
    simp [stepRecord, updateGroup_map_units_sum, add_assoc]

theorem foldl_stepRecord_by_product_units :
    ∀ (l : List Record) (s : SummaryState),
    (((l.foldl stepRecord s).by_product).map AggregateRow.units).sum =
      ((s.by_product).map AggregateRow.units).sum + (l.map Record.units_sold).sum
  | [], s => by simp
  | r :: l, s => by
    rw [List.foldl_cons, foldl_stepRecord_by_product_units l]
    simp [stepRecord, updateGroup_map_units_sum, add_assoc]

/-! ### Key-order lemmas: grouping keys appear in first-seen input order -/

theorem updateGroup_map_key (m : List AggregateRow) (k : String)
    (u : Int) (rev : Rat) :
    (updateGroup m k u rev).map AggregateRow.key =
      insKey (m.map AggregateRow.key) k := by
  induction m with
  | nil => simp [updateGroup, insKey]
  | cons a rest ih =>
    by_cases h : a.key = k
    · simp [updateGroup, insKey, h]
    · have hne : ¬ k = a.key := fun e => h e.symm
      simp only [updateGroup, if_neg h, List.map_cons, ih, insKey,
        List.mem_cons, hne, false_or]
      by_cases hm : k ∈ rest.map AggregateRow.key
      · simp [hm]
      · simp [hm]

theorem foldl_stepRecord_by_artisan_keys :
    ∀ (l : List Record) (s : SummaryState),
    ((l.foldl stepRecord s).by_artisan).map AggregateRow.key =
      (l.map Record.artisan).foldl insKey ((s.by_artisan).map AggregateRow.key)
  | [], _ => by simp
  | r :: l, s => by
    rw [List.foldl_cons, foldl_stepRecord_by_artisan_keys l]
    simp [stepRecord, updateGroup_map_key]

theorem foldl_stepRecord_by_product_keys :
    ∀ (l : List Record) (s : SummaryState),
    ((l.foldl stepRecord s).by_product).map AggregateRow.key =
      (l.map Record.product).foldl insKey ((s.by_product).map AggregateRow.key)
  | [], _ => by simp
  | r :: l, s => by
    rw [List.foldl_cons, foldl_stepRecord_by_product_keys l]
    simp [stepRecord, updateGroup_map_key]

theorem foldl_insKey_nodup :
    ∀ (ks acc : List String), acc.Nodup → (ks.foldl insKey acc).Nodup
  | [], _, h => h
  | k :: ks, acc, h => by
    rw [List.foldl_cons]
    refine foldl_insKey_nodup ks _ ?_
    unfold insKey
    by_cases hm : k ∈ acc
    · simpa [hm] using h
    · simp [hm, List.nodup_append, h]

theorem firstSeen_nodup (ks : List String) : (firstSeen ks).Nodup :=
  foldl_insKey_nodup ks [] (by simp)

theorem nodup_pairwise_keyPos :
    ∀ (fs : List String), fs.Nodup →
      fs.Pairwise (fun a b => keyPos fs a < keyPos fs b)
  | [], _ => List.Pairwise.nil
  | x :: l, h => by
    rcases List.nodup_cons.mp h with ⟨hx, hl⟩
    refine List.pairwise_cons.mpr ⟨?_, ?_⟩
    · intro b hb
      have hbx : ¬ x = b := fun e => hx (e ▸ hb)
      simp [keyPos, hbx]
    · refine (nodup_pairwise_keyPos l hl).imp_of_mem ?_
      intro a b ha hb hab
      have hxa : ¬ x = a := fun e => hx (e ▸ ha)
      have hxb : ¬ x = b := fun e => hx (e ▸ hb)
      simpa [keyPos, hxa, hxb] using hab

/-! ### Stability of the revenue sort

Python's `sorted` is stable and `reverse=True` keeps the order of ties, so
any relation that can only fail between rows of equal revenue survives the
sort: this is how "ties preserve first-seen key order" is transported from
the grouped list to the sorted table. -/

theorem orderedInsert_pairwise_tie (S : AggregateRow → AggregateRow → Prop) :
    ∀ (l : List AggregateRow) (x : AggregateRow),
    l.Pairwise (fun a b => a.revenue = b.revenue → S a b) →
    (∀ y ∈ l, x.revenue = y.revenue → S x y) →
    (l.orderedInsert revGE x).Pairwise (fun a b => a.revenue = b.revenue → S a b)
  | [], x, _, _ => by simp
  | b :: l, x, h, hx => by
    rw [List.orderedInsert]
    rcases List.pairwise_cons.mp h with ⟨hb, hl⟩
    by_cases hle : revGE x b
    · rw [if_pos hle]
      exact List.pairwise_cons.mpr ⟨hx, h⟩
    · rw [if_neg hle]
      refine List.pairwise_cons.mpr ⟨?_, ?_⟩
      · intro y hy
        rcases (List.mem_orderedInsert revGE).mp hy with hyx | hyl
        · subst hyx
          intro he
          exact absurd (le_of_eq he) hle
        · exact hb y hyl
      · exact orderedInsert_pairwise_tie S l x hl
          (fun y hy => hx y (List.mem_cons_of_mem b hy))

theorem insertionSort_pairwise_tie (S : AggregateRow → AggregateRow → Prop) :
    ∀ (l : List AggregateRow),
    l.Pairwise (fun a b => a.revenue = b.revenue → S a b) →
    (l.insertionSort revGE).Pairwise (fun a b => a.revenue = b.revenue → S a b)
  | [], _ => by simp
  | a :: l, h => by
    rw [List.insertionSort]
    rcases List.pairwise_cons.mp h with ⟨ha, hl⟩
    exact orderedInsert_pairwise_tie S _ a (insertionSort_pairwise_tie S l hl)
      (fun y hy => ha y ((List.mem_insertionSort revGE).mp hy))

/-- The full ordering property of one sorted table: revenue non-increasing,
and ties ordered by the first-seen rank of their keys in `ks` (the input's
key column). -/
theorem sorted_table_pairwise (g : List AggregateRow) (ks : List String)
    (hkeys : g.map AggregateRow.key = firstSeen ks) :
    (g.insertionSort revGE).Pairwise (fun a b =>
      b.revenue ≤ a.revenue ∧ (a.revenue = b.revenue →
        keyPos (firstSeen ks) a.key < keyPos (firstSeen ks) b.key)) := by
  have hsorted : (g.insertionSort revGE).Pairwise
      (fun a b => b.revenue ≤ a.revenue) :=
    (List.sorted_insertionSort revGE g).imp (fun h => h)
  have hpos : (firstSeen ks).Pairwise
      (fun a b => keyPos (firstSeen ks) a < keyPos (firstSeen ks) b) :=
    nodup_pairwise_keyPos _ (firstSeen_nodup ks)
  have hpos1 : (g.map AggregateRow.key).Pairwise
      (fun a b => keyPos (firstSeen ks) a < keyPos (firstSeen ks) b) := by
    rw [hkeys]; exact hpos
  have hpos2 : g.Pairwise (fun a b =>
      keyPos (firstSeen ks) a.key < keyPos (firstSeen ks) b.key) :=
    (List.pairwise_map (f := AggregateRow.key)).mp hpos1
  have htie0 : g.Pairwise (fun a b => a.revenue = b.revenue →
      keyPos (firstSeen ks) a.key < keyPos (firstSeen ks) b.key) := by
    refine hpos2.imp ?_
    intro a b h _
    exact h
  exact hsorted.and (insertionSort_pairwise_tie _ g htie0)

/-! ### The claims -/

/-- **C1.** For every input record sequence, the `total_units` value returned
by the aggregator (`generate_summary`) equals the sum of `units_sold` over
all input records. -/
theorem claim_C1_total_units (l : List Record) :
    (generate_summary l).total_units = (l.map Record.units_sold).sum := by
  simp [generate_summary, foldl_stepRecord_total_units]

/-- **C2.** For every input record sequence, the `total_revenue` value
returned by the aggregator (`generate_summary`) equals the sum of
`units_sold * unit_price` over all input records. In this embedding float
arithmetic is modelled by exact rationals, so the identity holds exactly —
in particular within any floating-point tolerance. -/
theorem claim_C2_total_revenue (l : List Record) :
    (generate_summary l).total_revenue =
      (l.map fun r => (r.units_sold : Rat) * r.unit_price).sum := by
  simp [generate_summary, foldl_stepRecord_total_revenue]

/-- **C3.** For every input record sequence, summing `units_sold` over all
`AggregateRow` entries of the `by_artisan` table returned by
`generate_summary` equals `total_units`, and the same holds for the
`by_product` table. -/
theorem claim_C3_table_units_sum (l : List Record) :
    (((generate_summary l).by_artisan).map AggregateRow.units).sum =
        (generate_summary l).total_units ∧
    (((generate_summary l).by_product).map AggregateRow.units).sum =
        (generate_summary l).total_units := by
  constructor
  · simp only [generate_summary]
    rw [((l.foldl stepRecord ⟨0, 0, [], []⟩).by_artisan.perm_insertionSort
          revGE).map AggregateRow.units |>.sum_eq]
    rw [foldl_stepRecord_by_artisan_units, foldl_stepRecord_total_units]
    simp
  · simp only [generate_summary]
    rw [((l.foldl stepRecord ⟨0, 0, [], []⟩).by_product.perm_insertionSort
          revGE).map AggregateRow.units |>.sum_eq]
    rw [foldl_stepRecord_by_product_units, foldl_stepRecord_total_units]
    simp

/-- **C4.** For every input record sequence, the `by_artisan` and
`by_product` tables returned by `generate_summary` are sorted non-increasing
by revenue, and entries of equal revenue are ordered by the first-seen rank
of their keys in the input (the position of the key in `firstSeen` of the
input's key column). -/
theorem claim_C4_tables_sorted_stable (l : List Record) :
    ((generate_summary l).by_artisan.Pairwise (fun a b =>
      b.revenue ≤ a.revenue ∧ (a.revenue = b.revenue →
        keyPos (firstSeen (l.map Record.artisan)) a.key <
        keyPos (firstSeen (l.map Record.artisan)) b.key))) ∧
    ((generate_summary l).by_product.Pairwise (fun a b =>
      b.revenue ≤ a.revenue ∧ (a.revenue = b.revenue →
        keyPos (firstSeen (l.map Record.product)) a.key <
        keyPos (firstSeen (l.map Record.product)) b.key))) := by
  constructor
  · have h := sorted_table_pairwise ((l.foldl stepRecord ⟨0, 0, [], []⟩).by_artisan)
      (l.map Record.artisan)
      (by simpa [firstSeen] using foldl_stepRecord_by_artisan_keys l ⟨0, 0, [], []⟩)
    simpa [generate_summary] using h
  · have h := sorted_table_pairwise ((l.foldl stepRecord ⟨0, 0, [], []⟩).by_product)
      (l.map Record.product)
      (by simpa [firstSeen] using foldl_stepRecord_by_product_keys l ⟨0, 0, [], []⟩)
    simpa [generate_summary] using h

/-- **C5.** For every input record sequence, each grouping key (artisan name,
respectively product name) appears at most once among the `AggregateRow`
entries of its respective table returned by `generate_summary`. -/
theorem claim_C5_keys_unique (l : List Record) :
    (((generate_summary l).by_artisan).map AggregateRow.key).Nodup ∧
    (((generate_summary l).by_product).map AggregateRow.key).Nodup := by
  constructor
  · have hperm := ((l.foldl stepRecord ⟨0, 0, [], []⟩).by_artisan.perm_insertionSort
      revGE).map AggregateRow.key
    have hnd : (((l.foldl stepRecord ⟨0, 0, [], []⟩).by_artisan).map
        AggregateRow.key).Nodup := by
      rw [show ((l.foldl stepRecord ⟨0, 0, [], []⟩).by_artisan).map AggregateRow.key
          = firstSeen (l.map Record.artisan) from
        by simpa [firstSeen] using foldl_stepRecord_by_artisan_keys l ⟨0, 0, [], []⟩]
      exact firstSeen_nodup _
    simpa [generate_summary] using hperm.nodup_iff.mpr hnd
  · have hperm := ((l.foldl stepRecord ⟨0, 0, [], []⟩).by_product.perm_insertionSort
      revGE).map AggregateRow.key
    have hnd : (((l.foldl stepRecord ⟨0, 0, [], []⟩).by_product).map
        AggregateRow.key).Nodup := by
      rw [show ((l.foldl stepRecord ⟨0, 0, [], []⟩).by_product).map AggregateRow.key
          = firstSeen (l.map Record.product) from
        by simpa [firstSeen] using foldl_stepRecord_by_product_keys l ⟨0, 0, [], []⟩]
      exact firstSeen_nodup _
    simpa [generate_summary] using hperm.nodup_iff.mpr hnd

/-- **C6.** On the three-record input
`(A, X, 2, 10.0), (B, X, 1, 5.0), (A, Y, 1, 3.0)`, `generate_summary`
returns `total_units = 4`, `total_revenue = 28.0`,
`by_artisan = [(A, 3, 23.0), (B, 1, 5.0)]` and
`by_product = [(X, 3, 25.0), (Y, 1, 3.0)]`. -/
theorem claim_C6_scenario :
    generate_summary
      [⟨"A", "X", 2, 10⟩, ⟨"B", "X", 1, 5⟩, ⟨"A", "Y", 1, 3⟩] =
    ⟨28, 4, [⟨"A", 3, 23⟩, ⟨"B", 1, 5⟩], [⟨"X", 3, 25⟩, ⟨"Y", 1, 3⟩]⟩ := by
  norm_num [generate_summary, stepRecord, updateGroup, List.insertionSort,
    List.orderedInsert, revGE]

/-- **C7.** On the empty input record sequence, `generate_summary` returns
`total_revenue = 0`, `total_units = 0` and two empty tables. It is a total
function of the record list, so no error is raised. -/
theorem claim_C7_empty_input : generate_summary [] = ⟨0, 0, [], []⟩ := rfl

/-! ### Lemmas about the runtime model -/

theorem lookup_zip_none :
    ∀ (header row : List String) (c : String), c ∉ header →
      (header.zip row).lookup c = none
  | [], _, _, _ => by simp
  | a :: hs, row, c, h => by
    have hca : c ≠ a := fun e => h (by rw [e]; exact List.mem_cons_self a hs)
    have hhs : c ∉ hs := fun m => h (List.mem_cons_of_mem a m)
    cases row with
    | nil => simp
    | cons v vs =>
      have hne : (c == a) = false := beq_eq_false_iff_ne.mpr hca
      simp only [List.zip_cons_cons, List.lookup, hne]
      exact lookup_zip_none hs vs c hhs

theorem parseRow_error_of_missing_numeric_col (header row : List String)
    (h : "units_sold" ∉ header ∨ "unit_price" ∉ header) :
    ∃ e, parseRow header row = .error e := by
  rcases h with h | h
  · exact ⟨.keyError "units_sold", by simp [parseRow, lookup_zip_none _ _ _ h]⟩
  · cases hus : (header.zip row).lookup "units_sold" with
    | none => exact ⟨.keyError "units_sold", by simp [parseRow, hus]⟩
    | some u =>
      cases hint : parseIntOpt u with
      | none =>
        exact ⟨.valueError ("invalid literal for int with base 10: " ++ u),
          by simp [parseRow, hus, hint]⟩
      | some i =>
        exact ⟨.keyError "unit_price",
          by simp [parseRow, hus, hint, lookup_zip_none _ _ _ h]⟩

theorem parseRow_ok_raw (header row : List String) (x : LoadedRow)
    (h : parseRow header row = .ok x) : x.raw = header.zip row := by
  unfold parseRow at h
  split at h
  · exact absurd h (by simp)
  · split at h
    · exact absurd h (by simp)
    · split at h
      · exact absurd h (by simp)
      · split at h
        · exact absurd h (by simp)
        · cases h
          rfl

theorem loadRows_ok_head (header r : List String) (rs : List (List String))
    (L : List LoadedRow) (h : loadRows header (r :: rs) = .ok L) :
    ∃ x L2, L = x :: L2 ∧ x.raw = header.zip r := by
  unfold loadRows at h
  cases hp : parseRow header r with
  | error e => rw [hp] at h; exact absurd h (by simp)
  | ok x =>
    rw [hp] at h
    cases hl : loadRows header rs with
    | error e => rw [hl] at h; exact absurd h (by simp)
    | ok xs =>
      rw [hl] at h
      cases h
      exact ⟨x, xs, rfl, parseRow_ok_raw header r x hp⟩

theorem summaryStepRun_error_of_missing (s : SummaryState) (r : LoadedRow)
    (h : r.raw.lookup "artisan" = none ∨ r.raw.lookup "product" = none) :
    ∃ e, summaryStepRun s r = .error e := by
  rcases h with h | h
  · exact ⟨.keyError "artisan", by simp [summaryStepRun, h]⟩
  · cases ha : r.raw.lookup "artisan" with
    | none => exact ⟨.keyError "artisan", by simp [summaryStepRun, ha]⟩
    | some a => exact ⟨.keyError "product", by simp [summaryStepRun, ha, h]⟩

/-- If every row's numeric columns are present, but some row's `units_sold`
or `unit_price` field fails its numeric coercion, the loader raises the
first such `ValueError` and returns no row list. -/
theorem loadRows_valueError :
    ∀ (header : List String) (rows : List (List String)),
    (∀ r ∈ rows, ((header.zip r).lookup "units_sold").isSome ∧
        ((header.zip r).lookup "unit_price").isSome) →
    (∃ r ∈ rows, ((header.zip r).lookup "units_sold").bind parseIntOpt = none ∨
        ((header.zip r).lookup "unit_price").bind parseFloatOpt = none) →
    ∃ m, loadRows header rows = .error (.valueError m)
  | _, [], _, hbad => by simp at hbad
  | header, r :: rs, hcols, hbad => by
    obtain ⟨hus, hps⟩ := hcols r (List.mem_cons_self r rs)
    obtain ⟨u, hu⟩ := Option.isSome_iff_exists.mp hus
    obtain ⟨p, hp⟩ := Option.isSome_iff_exists.mp hps
    cases hint : parseIntOpt u with
    | none =>
      exact ⟨"invalid literal for int with base 10: " ++ u,
        by simp [loadRows, parseRow, hu, hint]⟩
    | some i =>
      cases hfl : parseFloatOpt p with
      | none =>
        exact ⟨"could not convert string to float: " ++ p,
          by simp [loadRows, parseRow, hu, hint, hp, hfl]⟩
      | some q =>
        have hbad2 : ∃ r2 ∈ rs,
            ((header.zip r2).lookup "units_sold").bind parseIntOpt = none ∨
            ((header.zip r2).lookup "unit_price").bind parseFloatOpt = none := by
          rcases hbad with ⟨r2, hr2, hor⟩
          rcases List.mem_cons.mp hr2 with rfl | hr2tl
          · rcases hor with hor | hor
            · rw [hu] at hor
              simp [hint] at hor
            · rw [hp] at hor
              simp [hfl] at hor
          · exact ⟨r2, hr2tl, hor⟩
        obtain ⟨m, hm⟩ := loadRows_valueError header rs
          (fun r2 h2 => hcols r2 (List.mem_cons_of_mem r h2)) hbad2
        exact ⟨m, by simp [loadRows, parseRow, hu, hint, hp, hfl, hm]⟩

/-! ### Claims about the loader and `main` -/

/-- **C8.** For every run where the input file does not exist, the program
terminates with exit code 2 and an error message naming the missing file on
stderr. `sys.exit(2)` raises `SystemExit`, which `except Exception` does not
catch, so the code is not replaced by the generic exit code 1. -/
theorem claim_C8_missing_file (fs : String → Option CsvFile)
    (h : fs INPUT = none) :
    main fs = ⟨2, ["ERROR: input file " ++ INPUT ++ " not found"]⟩ := by
  simp [main, load_data, h]

/-- Witness for C8: the file system with no files at all. -/
theorem claim_C8_missing_file_witness :
    ((fun _ : String => (none : Option CsvFile)) INPUT = none) ∧
    main (fun _ : String => (none : Option CsvFile)) =
      ⟨2, ["ERROR: input file " ++ INPUT ++ " not found"]⟩ :=
  ⟨rfl, claim_C8_missing_file (fun _ => none) rfl⟩

/-- **C9.** For every run where the input file exists, every row has its
`units_sold` and `unit_price` fields present, and some row's `units_sold`
or `unit_price` field fails its numeric coercion (contains non-numeric
text), the loader raises a `ValueError` — returning no partial row list —
which propagates to the top-level handler: the program prints
`UNEXPECTED ERROR: <message>` and exits with code 1. -/
theorem claim_C9_parse_error (fs : String → Option CsvFile) (csv : CsvFile)
    (hfs : fs INPUT = some csv)
    (hcols : ∀ r ∈ csv.rows,
        ((csv.header.zip r).lookup "units_sold").isSome ∧
        ((csv.header.zip r).lookup "unit_price").isSome)
    (hbad : ∃ r ∈ csv.rows,
        ((csv.header.zip r).lookup "units_sold").bind parseIntOpt = none ∨
        ((csv.header.zip r).lookup "unit_price").bind parseFloatOpt = none) :
    ∃ m, load_data fs INPUT = .raised (.valueError m) ∧
      main fs = ⟨1, ["UNEXPECTED ERROR: " ++ m]⟩ := by
  obtain ⟨m, hm⟩ := loadRows_valueError csv.header csv.rows hcols hbad
  exact ⟨m, by simp [load_data, hfs, hm],
    by simp [main, load_data, hfs, hm, renderErr]⟩

/-- Witness for C9: a one-row file whose `units_sold` field is `"abc"`. -/
theorem claim_C9_parse_error_witness :
    ((fun p : String => if p = INPUT then
        some (⟨["artisan", "product", "units_sold", "unit_price"],
          [["A", "X", "abc", "2.5"]]⟩ : CsvFile) else none) INPUT =
      some ⟨["artisan", "product", "units_sold", "unit_price"],
        [["A", "X", "abc", "2.5"]]⟩) ∧
    (∀ r ∈ [["A", "X", "abc", "2.5"]],
        (((["artisan", "product", "units_sold", "unit_price"] : List String).zip
            r).lookup "units_sold").isSome ∧
        (((["artisan", "product", "units_sold", "unit_price"] : List String).zip
            r).lookup "unit_price").isSome) ∧
    (∃ r ∈ [["A", "X", "abc", "2.5"]],
        (((["artisan", "product", "units_sold", "unit_price"] : List String).zip
            r).lookup "units_sold").bind parseIntOpt = none ∨
        (((["artisan", "product", "units_sold", "unit_price"] : List String).zip
            r).lookup "unit_price").bind parseFloatOpt = none) ∧
    (∃ m, load_data (fun p : String => if p = INPUT then
        some (⟨["artisan", "product", "units_sold", "unit_price"],
          [["A", "X", "abc", "2.5"]]⟩ : CsvFile) else none) INPUT =
          .raised (.valueError m) ∧
      main (fun p : String => if p = INPUT then
        some (⟨["artisan", "product", "units_sold", "unit_price"],
          [["A", "X", "abc", "2.5"]]⟩ : CsvFile) else none) =
        ⟨1, ["UNEXPECTED ERROR: " ++ m]⟩) :=
  ⟨by decide, by decide, by decide,
    claim_C9_parse_error
      (fun p : String => if p = INPUT then
        some (⟨["artisan", "product", "units_sold", "unit_price"],
          [["A", "X", "abc", "2.5"]]⟩ : CsvFile) else none)
      ⟨["artisan", "product", "units_sold", "unit_price"],
        [["A", "X", "abc", "2.5"]]⟩
      (by decide) (by decide) (by decide)⟩

/-- **C10, counterexample.** The claim asserts exit code 1 for *every* run
whose input file exists but lacks a required header column. For a file with
a missing `artisan` column and *no data rows*, the loops never look any
field up: the program completes normally and exits 0, not 1. -/
theorem claim_C10_counterexample :
    ((fun p : String => if p = INPUT then
        some (⟨["product", "units_sold", "unit_price"], []⟩ : CsvFile)
      else none) INPUT =
        some ⟨["product", "units_sold", "unit_price"], []⟩) ∧
    "artisan" ∉ (["product", "units_sold", "unit_price"] : List String) ∧
    main (fun p : String => if p = INPUT then
        some (⟨["product", "units_sold", "unit_price"], []⟩ : CsvFile)
      else none) = ⟨0, []⟩ := by
  decide

/-- **C10, amended.** For every run where the input file exists, its header
lacks one of the required columns (`artisan`, `product`, `units_sold`,
`unit_price`), and the file has at least one data row, the program does not
exit with the not-found code 2: the failure (the missing-column lookup, or
an earlier coercion error on the same run) propagates as an unhandled error
to the top-level handler and the program terminates with exit code 1.
(With no data rows no lookup happens and the program exits 0.) -/
theorem claim_C10_missing_column (fs : String → Option CsvFile)
    (csv : CsvFile) (c : String) (hfs : fs INPUT = some csv)
    (hc : c ∈ (["artisan", "product", "units_sold", "unit_price"] : List String))
    (hmiss : c ∉ csv.header) (hrows : csv.rows ≠ []) :
    (main fs).exitCode = 1 := by
  obtain ⟨r, rs, hrw⟩ : ∃ r rs, csv.rows = r :: rs := by
    cases hr : csv.rows with
    | nil => exact absurd hr hrows
    | cons r rs => exact ⟨r, rs, rfl⟩
  have h4 : c = "artisan" ∨ c = "product" ∨ c = "units_sold" ∨
      c = "unit_price" := by simpa using hc
  simp only [main, load_data, hfs]
  cases hlr : loadRows csv.header csv.rows with
  | error e => simp
  | ok L =>
    rcases h4 with rfl | rfl | rfl | rfl
    · rw [hrw] at hlr
      obtain ⟨x, L2, rfl, hraw⟩ := loadRows_ok_head _ _ _ _ hlr
      have hnone : x.raw.lookup "artisan" = none := by
        rw [hraw]; exact lookup_zip_none _ _ _ hmiss
      obtain ⟨e, he⟩ := summaryStepRun_error_of_missing ⟨0, 0, [], []⟩ x
        (Or.inl hnone)
      simp [generateSummaryRun, summaryLoopRun, he]
    · rw [hrw] at hlr
      obtain ⟨x, L2, rfl, hraw⟩ := loadRows_ok_head _ _ _ _ hlr
      have hnone : x.raw.lookup "product" = none := by
        rw [hraw]; exact lookup_zip_none _ _ _ hmiss
      obtain ⟨e, he⟩ := summaryStepRun_error_of_missing ⟨0, 0, [], []⟩ x
        (Or.inr hnone)
      simp [generateSummaryRun, summaryLoopRun, he]
    · rw [hrw] at hlr
      obtain ⟨e, he⟩ := parseRow_error_of_missing_numeric_col csv.header r
        (Or.inl hmiss)
      rw [loadRows, he] at hlr
      exact absurd hlr (by simp)
    · rw [hrw] at hlr
      obtain ⟨e, he⟩ := parseRow_error_of_missing_numeric_col csv.header r
        (Or.inr hmiss)
      rw [loadRows, he] at hlr
      exact absurd hlr (by simp)

/-- Witness for the amended C10: a one-row file whose header lacks the
`artisan` column; the program exits with code 1. -/
theorem claim_C10_missing_column_witness :
    ((fun p : String => if p = INPUT then
        some (⟨["product", "units_sold", "unit_price"],
          [["X", "2", "3"]]⟩ : CsvFile) else none) INPUT =
      some ⟨["product", "units_sold", "unit_price"], [["X", "2", "3"]]⟩) ∧
    "artisan" ∈ (["artisan", "product", "units_sold", "unit_price"] : List String) ∧
    "artisan" ∉ (["product", "units_sold", "unit_price"] : List String) ∧
    ([["X", "2", "3"]] : List (List String)) ≠ [] ∧
    (main (fun p : String => if p = INPUT then
        some (⟨["product", "units_sold", "unit_price"],
          [["X", "2", "3"]]⟩ : CsvFile) else none)).exitCode = 1 :=
  ⟨by decide, by decide, by decide, by decide,
    claim_C10_missing_column
      (fun p : String => if p = INPUT then
        some (⟨["product", "units_sold", "unit_price"],
          [["X", "2", "3"]]⟩ : CsvFile) else none)
      ⟨["product", "units_sold", "unit_price"], [["X", "2", "3"]]⟩
      "artisan" (by decide) (by decide) (by decide) (by decide)⟩

end CraftBazaar
